import Mathlib

/-!
Verification of the media acquisition core of the `video_backend` repository.

The Lean definitions below are shallow embeddings of the Python source:

* `src/services/fetchers/key_manager.py`   — `PexelsAPIKeyManager`
* `src/services/fetchers/pexels_fetcher.py` — `PexelsFetcher`
* `src/services/fetchers/google_fetcher.py` — `GoogleImagesFetcher.get_item`
* `src/services/media_cache.py`            — `MediaCache`
* `src/services/media_fetcher_orchestrator.py` — `MediaFetcherService`

Timestamps are modelled as natural numbers (seconds); `datetime.utcnow()`
becomes an explicit `now : Nat` argument supplied per call.  Mutable objects
become explicit state records threaded through the functions.  Python
exceptions become `Option`/`Except` results.
-/

namespace VideoBackend

/-! ## Key manager (`PexelsAPIKeyManager`, key_manager.py)

Credentials are modelled as natural numbers.  `usage` is the per-key record
dict `{'count': …, 'start': …}`; `keys` is the deque (head = `keys[0]`,
`rotate(-1)` sends the head to the back). -/

/-- Per-credential usage record: `{'count': c, 'start': t}`. -/
structure UsageRec where
  count : Nat
  start : Nat
deriving DecidableEq, Repr

/-- State of a `PexelsAPIKeyManager`: deque of keys, usage dict,
`max_calls`, `period_seconds`. -/
structure KMState where
  keys : List Nat
  usage : Nat → UsageRec
  maxCalls : Nat
  period : Nat

/-- `__init__(keys, max_calls, period_seconds)` at construction time `t0`:
every key starts with `{'count': 0, 'start': utcnow()}`. -/
def initKM (keys : List Nat) (maxCalls period t0 : Nat) : KMState :=
  { keys := keys, usage := fun _ => ⟨0, t0⟩, maxCalls := maxCalls, period := period }

/-- The lazy window reset inside `get_next_key`:
`if now - rec['start'] >= self.period: rec['count'], rec['start'] = 0, now`. -/
def lazyReset (period now : Nat) (r : UsageRec) : UsageRec :=
  if period ≤ now - r.start then ⟨0, now⟩ else r

/-- Pointwise update of the usage dict. -/
def updateUsage (usage : Nat → UsageRec) (k : Nat) (r : UsageRec) : Nat → UsageRec :=
  fun x => if x = k then r else usage x

/-- The scan loop of `get_next_key` (`for _ in range(len(self.keys))`):
look at the head key, apply the lazy reset (persisted in the dict), take the
key if its count is below `max_calls` (incrementing and rotating past it),
otherwise rotate and continue with one unit of fuel less. -/
def getNextKeyAux (mc period now : Nat) :
    Nat → List Nat → (Nat → UsageRec) → Option Nat × List Nat × (Nat → UsageRec)
  | 0, keys, usage => (none, keys, usage)
  | _ + 1, [], usage => (none, [], usage)
  | fuel + 1, k :: rest, usage =>
    if (lazyReset period now (usage k)).count < mc then
      (some k, rest ++ [k],
        updateUsage usage k
          ⟨(lazyReset period now (usage k)).count + 1, (lazyReset period now (usage k)).start⟩)
    else
      getNextKeyAux mc period now fuel (rest ++ [k])
        (updateUsage usage k (lazyReset period now (usage k)))

/-- `get_next_key()` called at time `now`: returns `some key` or `none`
(the `RuntimeError("Todas las claves API están agotadas.")`), plus the
updated manager state. -/
def get_next_key (now : Nat) (s : KMState) : Option Nat × KMState :=
  match getNextKeyAux s.maxCalls s.period now s.keys.length s.keys s.usage with
  | (res, keys', usage') => (res, { s with keys := keys', usage := usage' })

/-- Run a sequence of `get_next_key()` calls at the given times, collecting
the trace of `(time, returned key)` pairs and the final state. -/
def runCalls : List Nat → KMState → List (Nat × Option Nat) × KMState
  | [], s => ([], s)
  | t :: ts, s =>
    match get_next_key t s with
    | (res, s') =>
      match runCalls ts s' with
      | (tr, s'') => ((t, res) :: tr, s'')

/-- Number of calls in a trace that returned key `k` at a time in
`[lo, lo + len)`. -/
def usesOfKeyIn (k lo len : Nat) : List (Nat × Option Nat) → Nat
  | [] => 0
  | e :: tr => (if e.2 = some k ∧ lo ≤ e.1 ∧ e.1 < lo + len then 1 else 0) + usesOfKeyIn k lo len tr

/-- Number of calls in a trace that returned key `k` at a time `≥ t`. -/
def usesSince (k t : Nat) : List (Nat × Option Nat) → Nat
  | [] => 0
  | e :: tr => (if e.2 = some k ∧ t ≤ e.1 then 1 else 0) + usesSince k t tr

/-- Inductive invariant for the per-window rate-limit proof: all trace times
are bounded by `T`, and for every key the stored count bounds both
`max_calls` and the number of times the key was handed out since its current
window start; moreover every use of the key lies strictly inside a window
starting at the key's current window start. -/
def RateInv (s : KMState) (tr : List (Nat × Option Nat)) (T : Nat) : Prop :=
  (∀ e ∈ tr, e.1 ≤ T) ∧
  ∀ k : Nat,
    (s.usage k).count ≤ s.maxCalls ∧
    (s.usage k).start ≤ T ∧
    usesSince k (s.usage k).start tr ≤ (s.usage k).count ∧
    ∀ e ∈ tr, e.2 = some k → e.1 - (s.usage k).start < s.period

/-- A fully-exhausted two-key manager state: both keys have used their single
allowed call in the current window. -/
def exhaustedKM : KMState :=
  { keys := [0, 1], usage := fun _ => ⟨1, 0⟩, maxCalls := 1, period := 3600 }

/-! ## Data model (`base_fetcher.py`) -/

/-- One entry of `video_files` as built by `pexels_fetcher.py`
(`video_file_info`).  `fps` is a float in the source; no claim uses it, so
it is modelled opaquely as `Option Nat`. -/
structure VideoFile where
  id : Option Nat := none
  quality : Option String := none
  file_type : String := "video/mp4"
  width : Option Nat := none
  height : Option Nat := none
  fps : Option Nat := none
  link : Option String := none
deriving DecidableEq, Repr

/-- The `MediaItem` dataclass; `__post_init__` replaces `None` collections
with empty ones, so collection fields are modelled as plain lists. -/
structure MediaItem where
  id : String
  url : String
  download_url : String
  title : String
  description : Option String := none
  tags : List String := []
  width : Nat := 0
  height : Nat := 0
  file_size : Option Nat := none
  photographer : Option String := none
  photographer_url : Option String := none
  provider : String := ""
  media_type : String := "photo"
  duration : Option Nat := none
  video_files : List VideoFile := []
  preview_images : List String := []
  thumbnail_url : Option String := none
deriving DecidableEq, Repr

/-- The `SearchResult` dataclass. -/
structure SearchResult where
  items : List MediaItem
  total_results : Nat
  page : Nat
  per_page : Nat
  total_pages : Nat := 0
  has_next : Bool := false
deriving DecidableEq, Repr

/-! ## MediaCache (`media_cache.py`)

Each namespace is a partial map from the normalized signature string to a
cache file (its filesystem `mtime` and parsed payload).  The md5 digest of
`_generate_cache_key` is modelled as the identity on the signature
string. -/

/-- A cache file on disk: modification time plus parsed JSON payload. -/
structure CacheFile (α : Type) where
  mtime : Nat
  payload : α
deriving DecidableEq, Repr

/-- The fields of a `SearchResult` that `cache_search_result` serializes
(`total_pages` is not stored). -/
structure StoredSearch where
  items : List MediaItem
  total_results : Nat
  page : Nat
  per_page : Nat
  has_next : Bool
deriving DecidableEq, Repr

/-- `MediaCache` state: TTL in hours plus the `searches` and `metadata`
namespaces. -/
structure MediaCacheState where
  ttl_hours : Nat
  searches : String → Option (CacheFile StoredSearch)
  metadata : String → Option (CacheFile MediaItem)

/-- A freshly created cache directory: both namespaces empty. -/
def emptyCache (ttl_hours : Nat) : MediaCacheState :=
  { ttl_hours := ttl_hours, searches := fun _ => none, metadata := fun _ => none }

/-- The normalized search signature
`f"{provider_prefix}{query}_{page}_{per_page}_{json.dumps(filters, sort_keys=True)}"`;
`filtersJson` stands for the serialized sorted filters dict. -/
def searchKeyString (provider : Option String) (query : String) (page perPage : Nat)
    (filtersJson : String) : String :=
  (match provider with
    | some p => p ++ "_"
    | none => "") ++
    query ++ "_" ++ toString page ++ "_" ++ toString perPage ++ "_" ++ filtersJson

/-- The metadata signature `f"{item.provider}_{item.id}"`. -/
def metaKeyString (provider id : String) : String :=
  provider ++ "_" ++ id

/-- `_is_cache_valid`: the file exists and
`time.time() - cache_file.stat().st_mtime < ttl_hours * 3600`. -/
def is_cache_valid {α : Type} (ttl_hours now : Nat) : Option (CacheFile α) → Bool
  | none => false
  | some f => decide (now - f.mtime < ttl_hours * 3600)

/-- `cache_search_result` executed at time `now` (the written file gets
`mtime = now`). -/
def cache_search_result (now : Nat) (query : String) (page perPage : Nat)
    (filtersJson : String) (result : SearchResult) (provider : Option String)
    (st : MediaCacheState) : MediaCacheState :=
  { st with searches := fun key =>
      if key = searchKeyString provider query page perPage filtersJson then
        some ⟨now, ⟨result.items, result.total_results, result.page, result.per_page,
          result.has_next⟩⟩
      else st.searches key }

/-- `get_cached_search_result` executed at time `now`; reconstructs the
`SearchResult` from the stored fields (`total_pages` falls back to the
dataclass default `0`). -/
def get_cached_search_result (now : Nat) (query : String) (page perPage : Nat)
    (filtersJson : String) (provider : Option String) (st : MediaCacheState) :
    Option SearchResult :=
  let file := st.searches (searchKeyString provider query page perPage filtersJson)
  if is_cache_valid st.ttl_hours now file then
    match file with
    | some f =>
        some ⟨f.payload.items, f.payload.total_results, f.payload.page,
          f.payload.per_page, 0, f.payload.has_next⟩
    | none => none
  else none

/-- `cache_media_item` executed at time `now`. -/
def cache_media_item (now : Nat) (item : MediaItem) (st : MediaCacheState) :
    MediaCacheState :=
  { st with metadata := fun key =>
      if key = metaKeyString item.provider item.id then some ⟨now, item⟩
      else st.metadata key }

/-! ## Pexels fetcher (`pexels_fetcher.py`) -/

/-- The empty `SearchResult` returned when all attempts fail:
`SearchResult(items=[], total_results=0, page=page, per_page=per_page,
total_pages=0, has_next=False)`. -/
def emptySearchResult (page perPage : Nat) : SearchResult :=
  { items := [], total_results := 0, page := page, per_page := perPage,
    total_pages := 0, has_next := false }

/-- `PexelsFetcher.search` with the `_search_photos`/`_search_videos`
sub-calls abstracted as fallible oracles mapping `(query, page, per_page)`
to the `Except`-wrapped result of the call (an uncaught Python exception —
e.g. the `ZeroDivisionError` a sub-search raises at `per_page = 0` when an
HTTP attempt succeeds — is an `error`, which `search` propagates);
`mediaType` is `filters.get("media_type", "photo")`.  In the `"both"`
branch the source evaluates `photo_results` first, then `video_results`,
then builds `SearchResult(...)` whose `total_pages`/`has_next` arguments
compute `total_results // per_page`: at `per_page = 0` this raises an
uncaught `ZeroDivisionError` instead of returning. -/
def pexels_search (query : String) (page perPage : Nat) (mediaType : String)
    (photoSearch videoSearch : String → Nat → Nat → Except String SearchResult) :
    Except String SearchResult :=
  if mediaType = "both" then
    match photoSearch query page (perPage / 2) with
    | Except.error e => Except.error e
    | Except.ok photoResults =>
      match videoSearch query page (perPage / 2) with
      | Except.error e => Except.error e
      | Except.ok videoResults =>
        let combinedItems := photoResults.items ++ videoResults.items
        let totalResults := photoResults.total_results + videoResults.total_results
        if perPage = 0 then Except.error "ZeroDivisionError"
        else
          Except.ok
            { items := combinedItems.take perPage
              total_results := totalResults
              page := page
              per_page := perPage
              total_pages := totalResults / perPage + 1
              has_next := decide (page < totalResults / perPage + 1) }
  else if mediaType = "video" then videoSearch query page perPage
  else photoSearch query page perPage

/-- Outcome of one HTTP search request (`session.get` + `raise_for_status`
+ JSON conversion): a parsed `SearchResult`, or a
`requests.RequestException`. -/
inductive AttemptOutcome
  | success (r : SearchResult)
  | requestError
deriving Repr

/-- The shared retry loop of `_search_photos` and `_search_videos`
(`for attempt in range(1, self.max_retries + 1)`), with the key manager
threaded through.  `now attempt` is the wall-clock time at the attempt,
`http attempt` the outcome of its HTTP request.  Output: the caller-visible
result (wrapped in `Except` to make an escaping error expressible — the
source catches the exhaustion `RuntimeError`, logs it and `break`s, then
falls through to `return SearchResult(items=[], total_results=0, ...)`),
the final key-manager state, and the number of HTTP requests performed. -/
def searchAttempts (page perPage : Nat) (now : Nat → Nat) (http : Nat → AttemptOutcome) :
    Nat → Nat → KMState → Except String SearchResult × KMState × Nat
  | 0, _, s => (Except.ok (emptySearchResult page perPage), s, 0)
  | remaining + 1, attempt, s =>
    match get_next_key (now attempt) s with
    | (none, s') => (Except.ok (emptySearchResult page perPage), s', 0)
    | (some _, s') =>
      match http attempt with
      | AttemptOutcome.success r => (Except.ok r, s', 1)
      | AttemptOutcome.requestError =>
        match searchAttempts page perPage now http remaining (attempt + 1) s' with
        | (res, s'', n) => (res, s'', n + 1)

/-- The `_search_photos`/`_search_videos` retry phase with
`max_retries = 3`, starting at attempt 1. -/
def pexels_search_retry (page perPage : Nat) (now : Nat → Nat)
    (http : Nat → AttemptOutcome) (s : KMState) :
    Except String SearchResult × KMState × Nat :=
  searchAttempts page perPage now http 3 1 s

/-- Python truthiness of `vf.get("link")`: present and non-empty. -/
def truthyLink : Option String → Bool
  | none => false
  | some s => decide (s ≠ "")

/-- The `quality_preferences` dict of `_select_video_quality`. -/
def qualityPreferences : List (String × List String) :=
  [("best", ["hd", "sd", "hls"]), ("hd", ["hd"]), ("sd", ["sd"]),
   ("worst", ["sd", "hd", "hls"])]

/-- The nested preference scan of `_select_video_quality`:
`for pref in preferences: for vf in video_files:
  if vf.get("quality") == pref and vf.get("link"): return vf.get("link")`. -/
def findPrefLink (videoFiles : List VideoFile) : List String → Option String
  | [] => none
  | p :: ps =>
    match videoFiles.find? (fun vf => vf.quality == some p && truthyLink vf.link) with
    | some vf => some (vf.link.getD "")
    | none => findPrefLink videoFiles ps

/-- `_select_video_quality(video_files, quality)`. -/
def select_video_quality (videoFiles : List VideoFile) (quality : String) : String :=
  if videoFiles = [] then ""
  else
    match findPrefLink videoFiles
        ((qualityPreferences.lookup quality).getD ["hd", "sd", "hls"]) with
    | some link => link
    | none =>
      match videoFiles.find? (fun vf => truthyLink vf.link) with
      | some vf => vf.link.getD ""
      | none => ""

/-- Spec-side selection, following the claim: for the requested label the
fixed preference order is `best ↦ [hd, sd, hls]`, `hd ↦ [hd]`, `sd ↦ [sd]`,
`worst ↦ [sd, hd, hls]`; the result is the link of the first entry matching
the highest-priority quality that has any match (an entry matches when its
quality equals the preferred label and it carries a usable link); when no
entry matches any preferred quality, fall back to the first entry that has
a link; an empty list yields `""`. -/
def selectVideoQualitySpec (videoFiles : List VideoFile) (quality : String) : String :=
  match videoFiles with
  | [] => ""
  | _ :: _ =>
    let order : List String :=
      if quality = "best" then ["hd", "sd", "hls"]
      else if quality = "hd" then ["hd"]
      else if quality = "sd" then ["sd"]
      else ["sd", "hd", "hls"]
    match order.findSome? (fun p =>
        (videoFiles.find? (fun vf => vf.quality == some p && truthyLink vf.link)).map
          (fun vf => vf.link.getD "")) with
    | some link => link
    | none =>
      match videoFiles.find? (fun vf => truthyLink vf.link) with
      | some vf => vf.link.getD ""
      | none => ""

/-! ## Google fetcher (`google_fetcher.py`) -/

/-- Error channel of provider calls: `NotImplementedError` (operation not
supported by the provider) versus `RuntimeError` (runtime failures such as
a failed or not-found fetch). -/
inductive FetchError
  | notSupported (msg : String)
  | runtimeError (msg : String)
deriving DecidableEq, Repr

/-- `GoogleImagesFetcher.get_item`: unconditionally raises
`NotImplementedError` (message paraphrased), for every `item_id` and
`media_type`. -/
def google_get_item (_itemId : String) (_mediaType : String) : Except FetchError MediaItem :=
  Except.error (FetchError.notSupported
    "Google scraper does not support fetching individual items by ID. Use search() method instead.")

/-! ## Orchestrator (`media_fetcher_orchestrator.py`) -/

/-- One cache write performed by the orchestrator. -/
inductive CacheWrite
  | searchEntry (key : String)
  | itemEntry (key : String)
deriving DecidableEq, Repr

/-- `MediaFetcherService.search_images` at time `now`, with the provider
call `self.fetcher.search(...)` abstracted by the result it returns
(`providerResult`).  Output: the returned result, the updated cache state,
and the list of cache writes performed (the `finally` fetcher cleanup does
not touch the cache). -/
def search_images (cacheEnabled useCache : Bool) (now : Nat) (providerName : String)
    (query : String) (page perPage : Nat) (filtersJson : String)
    (providerResult : SearchResult) (st : MediaCacheState) :
    SearchResult × MediaCacheState × List CacheWrite :=
  match (if cacheEnabled && useCache then
          get_cached_search_result now query page perPage filtersJson (some providerName) st
        else none) with
  | some cached => (cached, st, [])
  | none =>
    if cacheEnabled then
      let st1 := cache_search_result now query page perPage filtersJson providerResult
        (some providerName) st
      let st2 := providerResult.items.foldl (fun acc item => cache_media_item now item acc) st1
      (providerResult, st2,
        CacheWrite.searchEntry
            (searchKeyString (some providerName) query page perPage filtersJson) ::
          providerResult.items.map
            (fun item => CacheWrite.itemEntry (metaKeyString item.provider item.id)))
    else (providerResult, st, [])

/-- The download loop of `search_and_download`
(`for i, item in enumerate(items_to_download, 1)`) with per-item failure
isolation: `download i item` is `some path` on success and `none` when
`download_image` raised (the item is then logged and skipped). -/
def downloadLoop (download : Nat → MediaItem → Option String) :
    Nat → List MediaItem → List String
  | _, [] => []
  | i, item :: rest =>
    match download i item with
    | some path => path :: downloadLoop download (i + 1) rest
    | none => downloadLoop download (i + 1) rest

/-- `MediaFetcherService.search_and_download`, with the inner
`search_images` call abstracted by its result (`searchResult`) and
`download_image` by the `download` oracle. -/
def search_and_download (searchResult : SearchResult) (query : String) (count : Nat)
    (download : Nat → MediaItem → Option String) : Except String (List String) :=
  if searchResult.items = [] then
    Except.error ("No images found for query: " ++ query)
  else
    Except.ok (downloadLoop download 1 (searchResult.items.take count))

/-! ## Sample inputs used by witnesses -/

/-- A minimal media item. -/
def sampleItem : MediaItem :=
  { id := "42", url := "u", download_url := "d", title := "t" }

/-- A one-item search result. -/
def sampleResult : SearchResult :=
  { items := [sampleItem], total_results := 1, page := 1, per_page := 15,
    total_pages := 1, has_next := false }

/-- A stub item as produced by a stub provider. -/
def stubItem (n : Nat) : MediaItem :=
  { id := toString n, url := "", download_url := "", title := "", provider := "stub" }

/-- A stub provider result with five items. -/
def stubResult5 : SearchResult :=
  { items := [stubItem 1, stubItem 2, stubItem 3, stubItem 4, stubItem 5],
    total_results := 5, page := 1, per_page := 5, total_pages := 1, has_next := false }

/-- A two-item search result. -/
def fullSR : SearchResult :=
  { items := [stubItem 1, stubItem 2], total_results := 2, page := 1, per_page := 5 }

/-- A download oracle that succeeds only on the first item. -/
def flakyDownload : Nat → MediaItem → Option String
  | 1, _ => some "path1"
  | _, _ => none

/-- Sample video files for the quality-selection witness. -/
def sampleVideoFiles : List VideoFile :=
  [{ quality := some "sd", link := some "sd-url" },
   { quality := some "hd", link := some "hd-url" }]

/-- A stub photo sub-search that always succeeds with one photo item. -/
def stubPhotoSearch : String → Nat → Nat → Except String SearchResult :=
  fun _ page perPage =>
    Except.ok { items := [stubItem 1], total_results := 1, page := page, per_page := perPage }

/-- A stub video sub-search that always succeeds with one video item. -/
def stubVideoSearch : String → Nat → Nat → Except String SearchResult :=
  fun _ page perPage =>
    Except.ok { items := [stubItem 2], total_results := 1, page := page, per_page := perPage }

/-- The result `stubPhotoSearch` returns for `page = 1`, `per_page = 2`. -/
def stubPhotoResult : SearchResult :=
  { items := [stubItem 1], total_results := 1, page := 1, per_page := 2 }

/-- The result `stubVideoSearch` returns for `page = 1`, `per_page = 2`. -/
def stubVideoResult : SearchResult :=
  { items := [stubItem 2], total_results := 1, page := 1, per_page := 2 }

/-! ### Basic lemmas about the key-manager embedding -/

theorem updateUsage_self (usage : Nat → UsageRec) (k : Nat) (r : UsageRec) :
    updateUsage usage k r k = r := by
  simp [updateUsage]

theorem updateUsage_ne (usage : Nat → UsageRec) (k : Nat) (r : UsageRec) (x : Nat)
    (h : x ≠ k) : updateUsage usage k r x = usage x := by
  simp [updateUsage, h]

theorem lazyReset_idem (period now : Nat) (r : UsageRec) :
    lazyReset period now (lazyReset period now r) = lazyReset period now r := by
  by_cases h : period ≤ now - r.start
  · simp only [lazyReset, if_pos h]
    split <;> rfl
  · simp only [lazyReset, if_neg h]

theorem lazyReset_count_le (period now : Nat) (r : UsageRec) :
    (lazyReset period now r).count ≤ r.count := by
  by_cases h : period ≤ now - r.start
  · simp [lazyReset, if_pos h]
  · simp [lazyReset, if_neg h]

theorem mem_take_append {α : Type} {a : α} :
    ∀ (n : Nat) (l l' : List α), a ∈ List.take n l → a ∈ List.take n (l ++ l')
  | 0, _, _, h => by simp at h
  | _ + 1, [], _, h => by simp at h
  | n + 1, b :: l, l', h => by
    rw [List.take_succ_cons] at h
    rw [List.cons_append, List.take_succ_cons]
    rcases List.mem_cons.mp h with h | h
    · exact List.mem_cons.mpr (Or.inl h)
    · exact List.mem_cons.mpr (Or.inr (mem_take_append n l l' h))

/-- If the scan loop finds no usable key, every key it inspected (the first
`fuel` keys in rotation order) is at or above `max_calls` after its lazy
reset. -/
theorem exhausted_of_aux_none (mc period now : Nat) :
    ∀ (fuel : Nat) (keys : List Nat) (usage : Nat → UsageRec),
      (getNextKeyAux mc period now fuel keys usage).1 = none →
      ∀ k ∈ List.take fuel keys, mc ≤ (lazyReset period now (usage k)).count
  | 0, _, _, _ => by simp
  | _ + 1, [], _, _ => by simp
  | fuel + 1, k0 :: rest, usage, h => by
    intro k hk
    rw [List.take_succ_cons] at hk
    by_cases hc : (lazyReset period now (usage k0)).count < mc
    · exfalso
      unfold getNextKeyAux at h
      rw [if_pos hc] at h
      exact Option.some_ne_none k0 h
    · unfold getNextKeyAux at h
      rw [if_neg hc] at h
      rcases List.mem_cons.mp hk with hk | hk
      · subst hk
        exact Nat.le_of_not_lt hc
      · have ih := exhausted_of_aux_none mc period now fuel (rest ++ [k0])
          (updateUsage usage k0 (lazyReset period now (usage k0))) h k
          (mem_take_append fuel rest [k0] hk)
        by_cases hkk : k = k0
        · subst hkk
          rw [updateUsage_self, lazyReset_idem] at ih
          exact ih
        · rw [updateUsage_ne _ _ _ _ hkk] at ih
          exact ih

/-- Conversely, if every key is at or above `max_calls` after its lazy reset,
the scan finds nothing usable. -/
theorem aux_none_of_exhausted (mc period now : Nat) :
    ∀ (fuel : Nat) (keys : List Nat) (usage : Nat → UsageRec),
      (∀ k ∈ keys, mc ≤ (lazyReset period now (usage k)).count) →
      (getNextKeyAux mc period now fuel keys usage).1 = none
  | 0, _, _, _ => rfl
  | _ + 1, [], _, _ => rfl
  | fuel + 1, k0 :: rest, usage, hall => by
    have hc : ¬ (lazyReset period now (usage k0)).count < mc :=
      Nat.not_lt.mpr (hall k0 (List.mem_cons_self _ _))
    unfold getNextKeyAux
    rw [if_neg hc]
    apply aux_none_of_exhausted mc period now fuel
    intro k hk
    by_cases hkk : k = k0
    · subst hkk
      rw [updateUsage_self, lazyReset_idem]
      exact hall _ (List.mem_cons_self _ _)
    · rw [updateUsage_ne _ _ _ _ hkk]
      rcases List.mem_append.mp hk with hk | hk
      · exact hall k (List.mem_cons_of_mem _ hk)
      · exact absurd (List.mem_singleton.mp hk) hkk

theorem get_next_key_fst (now : Nat) (s : KMState) :
    (get_next_key now s).1 =
      (getNextKeyAux s.maxCalls s.period now s.keys.length s.keys s.usage).1 := by
  unfold get_next_key
  rcases getNextKeyAux s.maxCalls s.period now s.keys.length s.keys s.usage with ⟨res, keys', usage'⟩
  rfl

/-- C4: `get_next_key()` raises the credentials-exhausted error exactly when,
at the moment of the call and after applying the lazy window resets, every
credential's in-window call count equals `max_calls`.  The hypothesis is the
well-formedness guaranteed by the constructor and preserved by every call:
no stored count exceeds `max_calls`. -/
theorem get_next_key_exhausted_iff (now : Nat) (s : KMState)
    (hwf : ∀ k ∈ s.keys, (s.usage k).count ≤ s.maxCalls) :
    (get_next_key now s).1 = none ↔
      ∀ k ∈ s.keys, (lazyReset s.period now (s.usage k)).count = s.maxCalls := by
  rw [get_next_key_fst]
  constructor
  · intro h k hk
    have h1 : s.maxCalls ≤ (lazyReset s.period now (s.usage k)).count := by
      have := exhausted_of_aux_none s.maxCalls s.period now s.keys.length s.keys s.usage h k
      rw [List.take_length] at this
      exact this hk
    exact Nat.le_antisymm
      (Nat.le_trans (lazyReset_count_le _ _ _) (hwf k hk)) h1
  · intro h
    exact aux_none_of_exhausted s.maxCalls s.period now s.keys.length s.keys s.usage
      (fun k hk => Nat.le_of_eq (h k hk).symm)

theorem get_next_key_exhausted_iff_witness :
    (get_next_key 10 exhaustedKM).1 = none ↔
      ∀ k ∈ exhaustedKM.keys,
        (lazyReset exhaustedKM.period 10 (exhaustedKM.usage k)).count = exhaustedKM.maxCalls :=
  get_next_key_exhausted_iff 10 exhaustedKM (by decide)

/-- C5: For a manager constructed with credentials `[A, B]`, `max_calls = 1`,
`window_duration = 3600` s, three consecutive immediate calls to
`get_next_key()` return `A`, then `B`, then raise the credentials-exhausted
error (modelled as `none`). -/
theorem scenarioA_A_B_exhausted :
    (runCalls [0, 0, 0] (initKM [0, 1] 1 3600 0)).1 =
      [(0, some 0), (0, some 1), (0, none)] := by
  decide

/-! ### Per-key effect of `get_next_key` and the rate-limit invariant -/

theorem lazyReset_cases (period t : Nat) (r : UsageRec) :
    (¬ period ≤ t - r.start ∧ lazyReset period t r = r) ∨
      (period ≤ t - r.start ∧ lazyReset period t r = ⟨0, t⟩) := by
  by_cases h : period ≤ t - r.start
  · exact Or.inr ⟨h, if_pos h⟩
  · exact Or.inl ⟨h, if_neg h⟩

/-- On a successful return `some k`, the chosen key was below `max_calls`
after its lazy reset, and its record is written back with the count
incremented and the (possibly reset) window start. -/
theorem aux_usage_of_ret (mc period now : Nat) :
    ∀ (fuel : Nat) (keys : List Nat) (usage : Nat → UsageRec) (k : Nat),
      (getNextKeyAux mc period now fuel keys usage).1 = some k →
      (lazyReset period now (usage k)).count < mc ∧
      (getNextKeyAux mc period now fuel keys usage).2.2 k =
        ⟨(lazyReset period now (usage k)).count + 1, (lazyReset period now (usage k)).start⟩
  | 0, _, _, _, h => by simp [getNextKeyAux] at h
  | _ + 1, [], _, _, h => by simp [getNextKeyAux] at h
  | fuel + 1, k0 :: rest, usage, k, h => by
    by_cases hc : (lazyReset period now (usage k0)).count < mc
    · unfold getNextKeyAux at h ⊢
      rw [if_pos hc] at h ⊢
      have hk : k0 = k := Option.some.inj h
      subst hk
      exact ⟨hc, updateUsage_self _ _ _⟩
    · unfold getNextKeyAux at h ⊢
      rw [if_neg hc] at h ⊢
      have ih := aux_usage_of_ret mc period now fuel (rest ++ [k0])
        (updateUsage usage k0 (lazyReset period now (usage k0))) k h
      by_cases hkk : k = k0
      · subst hkk
        rw [updateUsage_self, lazyReset_idem] at ih
        exact ih
      · rw [updateUsage_ne _ _ _ _ hkk] at ih
        exact ih

/-- A key other than the returned one is either left untouched or only
lazily reset. -/
theorem aux_usage_of_not_ret (mc period now : Nat) :
    ∀ (fuel : Nat) (keys : List Nat) (usage : Nat → UsageRec) (k : Nat),
      (getNextKeyAux mc period now fuel keys usage).1 ≠ some k →
      (getNextKeyAux mc period now fuel keys usage).2.2 k = usage k ∨
      (getNextKeyAux mc period now fuel keys usage).2.2 k = lazyReset period now (usage k)
  | 0, _, _, _, _ => Or.inl rfl
  | _ + 1, [], _, _, _ => Or.inl rfl
  | fuel + 1, k0 :: rest, usage, k, h => by
    by_cases hc : (lazyReset period now (usage k0)).count < mc
    · unfold getNextKeyAux at h ⊢
      rw [if_pos hc] at h ⊢
      by_cases hkk : k = k0
      · subst hkk
        exact absurd rfl h
      · exact Or.inl (updateUsage_ne _ _ _ _ hkk)
    · unfold getNextKeyAux at h ⊢
      rw [if_neg hc] at h ⊢
      have ih := aux_usage_of_not_ret mc period now fuel (rest ++ [k0])
        (updateUsage usage k0 (lazyReset period now (usage k0))) k h
      by_cases hkk : k = k0
      · subst hkk
        rw [updateUsage_self] at ih
        rcases ih with ih | ih
        · exact Or.inr ih
        · rw [lazyReset_idem] at ih
          exact Or.inr ih
      · rw [updateUsage_ne _ _ _ _ hkk] at ih
        exact ih

theorem usesSince_append (k t : Nat) (tr₁ tr₂ : List (Nat × Option Nat)) :
    usesSince k t (tr₁ ++ tr₂) = usesSince k t tr₁ + usesSince k t tr₂ := by
  induction tr₁ with
  | nil => simp [usesSince]
  | cons e tr ih => simp [usesSince, ih, Nat.add_assoc]

theorem usesSince_eq_zero (k t : Nat) (tr : List (Nat × Option Nat))
    (h : ∀ e ∈ tr, e.2 = some k → e.1 < t) : usesSince k t tr = 0 := by
  induction tr with
  | nil => rfl
  | cons e tr ih =>
    have he : ¬ (e.2 = some k ∧ t ≤ e.1) := by
      rintro ⟨h1, h2⟩
      exact absurd h2 (Nat.not_le.mpr (h e (List.mem_cons_self _ _) h1))
    simp only [usesSince, if_neg he, Nat.zero_add]
    exact ih (fun e' he' => h e' (List.mem_cons_of_mem _ he'))

theorem rateInv_step (s : KMState) (tr : List (Nat × Option Nat)) (T t : Nat)
    (hper : 0 < s.period) (hInv : RateInv s tr T) (hT : T ≤ t) :
    RateInv (get_next_key t s).2 (tr ++ [(t, (get_next_key t s).1)]) t := by
  obtain ⟨htr, hall⟩ := hInv
  refine ⟨?_, ?_⟩
  · intro e he
    rcases List.mem_append.mp he with he | he
    · exact Nat.le_trans (htr e he) hT
    · rw [List.mem_singleton.mp he]
  · intro k
    obtain ⟨hcount, hstart, huses, hwin⟩ := hall k
    have hstart_t : (s.usage k).start ≤ t := Nat.le_trans hstart hT
    have hzero_of_reset : s.period ≤ t - (s.usage k).start → usesSince k t tr = 0 := by
      intro hcond
      apply usesSince_eq_zero
      intro e he hk
      have h1 := hwin e he hk
      by_contra hcon
      have h2 : t ≤ e.1 := Nat.le_of_not_lt hcon
      have h3 : t - (s.usage k).start ≤ e.1 - (s.usage k).start :=
        Nat.sub_le_sub_right h2 _
      omega
    by_cases hret : (get_next_key t s).1 = some k
    · -- k is the key handed out by this call
      have hu := aux_usage_of_ret s.maxCalls s.period t s.keys.length s.keys s.usage k hret
      have hlt : (lazyReset s.period t (s.usage k)).count < s.maxCalls := hu.1
      have husage : (get_next_key t s).2.usage k =
          ⟨(lazyReset s.period t (s.usage k)).count + 1,
           (lazyReset s.period t (s.usage k)).start⟩ := hu.2
      rw [husage]
      rcases lazyReset_cases s.period t (s.usage k) with ⟨hcond, hlr⟩ | ⟨hcond, hlr⟩
      · -- window not elapsed: count incremented, start unchanged
        rw [hlr] at hlt ⊢
        refine ⟨Nat.succ_le_of_lt hlt, hstart_t, ?_, ?_⟩
        · rw [usesSince_append]
          have hone : usesSince k (s.usage k).start [(t, (get_next_key t s).1)] ≤ 1 := by
            simp only [usesSince]
            split <;> simp
          exact Nat.add_le_add huses hone
        · intro e he hk
          rcases List.mem_append.mp he with he | he
          · exact hwin e he hk
          · rw [List.mem_singleton.mp he]
            exact Nat.lt_of_not_le (fun hcon => hcond hcon)
      · -- window elapsed: reset to ⟨0, t⟩ then incremented
        rw [hlr] at hlt ⊢
        refine ⟨Nat.succ_le_of_lt hlt, Nat.le_refl t, ?_, ?_⟩
        · rw [usesSince_append, hzero_of_reset hcond]
          simp only [usesSince]
          split <;> simp
        · intro e he hk
          rcases List.mem_append.mp he with he | he
          · have h1 : e.1 ≤ t := Nat.le_trans (htr e he) hT
            simpa [Nat.sub_eq_zero_of_le h1] using hper
          · rw [List.mem_singleton.mp he]
            simpa using hper
    · -- k is not the key handed out by this call
      have hu : (get_next_key t s).2.usage k = s.usage k ∨
          (get_next_key t s).2.usage k = lazyReset s.period t (s.usage k) :=
        aux_usage_of_not_ret s.maxCalls s.period t s.keys.length s.keys s.usage k hret
      have hnotk : ∀ e ∈ ([(t, (get_next_key t s).1)] : List (Nat × Option Nat)),
          ¬ e.2 = some k := by
        intro e he
        rw [List.mem_singleton.mp he]
        exact hret
      have hsingle : ∀ u : Nat, usesSince k u [(t, (get_next_key t s).1)] = 0 := by
        intro u
        simp only [usesSince]
        rw [if_neg (by rintro ⟨h1, -⟩; exact hret h1)]
      rcases hu with hu | hu
      · rw [hu]
        refine ⟨hcount, hstart_t, ?_, ?_⟩
        · rw [usesSince_append, hsingle]
          omega
        · intro e he hk
          rcases List.mem_append.mp he with he | he
          · exact hwin e he hk
          · exact absurd hk (hnotk e he)
      · rw [hu]
        rcases lazyReset_cases s.period t (s.usage k) with ⟨hcond, hlr⟩ | ⟨hcond, hlr⟩
        · rw [hlr]
          refine ⟨hcount, hstart_t, ?_, ?_⟩
          · rw [usesSince_append, hsingle]
            omega
          · intro e he hk
            rcases List.mem_append.mp he with he | he
            · exact hwin e he hk
            · exact absurd hk (hnotk e he)
        · rw [hlr]
          refine ⟨Nat.zero_le _, Nat.le_refl t, ?_, ?_⟩
          · rw [usesSince_append, hsingle, hzero_of_reset hcond]
          · intro e he hk
            rcases List.mem_append.mp he with he | he
            · have h1 : e.1 ≤ t := Nat.le_trans (htr e he) hT
              simpa [Nat.sub_eq_zero_of_le h1] using hper
            · exact absurd hk (hnotk e he)

theorem runCalls_maxCalls :
    ∀ (times : List Nat) (s : KMState), (runCalls times s).2.maxCalls = s.maxCalls
  | [], _ => rfl
  | t :: ts, s => runCalls_maxCalls ts (get_next_key t s).2

theorem runCalls_rateInv :
    ∀ (times : List Nat) (s : KMState) (tr : List (Nat × Option Nat)) (T : Nat),
      0 < s.period →
      List.Pairwise (· ≤ ·) times →
      (∀ u ∈ times, T ≤ u) →
      RateInv s tr T →
      ∃ T', RateInv (runCalls times s).2 (tr ++ (runCalls times s).1) T'
  | [], _, tr, T, _, _, _, hInv => ⟨T, by simp only [runCalls, List.append_nil]; exact hInv⟩
  | t :: ts, s, tr, T, hper, hpw, hge, hInv => by
    have h1 := rateInv_step s tr T t hper hInv (hge t (List.mem_cons_self _ _))
    have hpw' := (List.pairwise_cons.mp hpw).2
    have hge' : ∀ u ∈ ts, t ≤ u := (List.pairwise_cons.mp hpw).1
    have ih := runCalls_rateInv ts (get_next_key t s).2 (tr ++ [(t, (get_next_key t s).1)]) t
      hper hpw' hge' h1
    obtain ⟨T', hInv'⟩ := ih
    refine ⟨T', ?_⟩
    have heq : tr ++ (runCalls (t :: ts) s).1 =
        (tr ++ [(t, (get_next_key t s).1)]) ++ (runCalls ts (get_next_key t s).2).1 := by
      rw [List.append_assoc]
      rfl
    rw [heq]
    exact hInv'

/-- C1 (amended): over any sequence of `get_next_key()` calls at
nondecreasing times (all at or after construction) with a positive window
duration, each credential is handed out at most `max_calls` times since that
credential's current window start — the at-most-`max_calls` bound holds per
lazily-reset window, not for every rolling interval. -/
theorem rate_limit_per_window (keys : List Nat) (mc period t0 : Nat)
    (times : List Nat) (k : Nat)
    (hper : 0 < period)
    (hsorted : List.Pairwise (· ≤ ·) times)
    (ht0 : ∀ u ∈ times, t0 ≤ u) :
    usesSince k (((runCalls times (initKM keys mc period t0)).2.usage k).start)
        (runCalls times (initKM keys mc period t0)).1 ≤ mc := by
  have h0 : RateInv (initKM keys mc period t0) [] t0 := by
    refine ⟨?_, ?_⟩
    · intro e he
      simp at he
    · intro k'
      refine ⟨Nat.zero_le _, Nat.le_refl _, Nat.le_refl _, ?_⟩
      intro e he
      simp at he
  obtain ⟨T', hInv⟩ :=
    runCalls_rateInv times (initKM keys mc period t0) [] t0 hper hsorted ht0 h0
  rw [List.nil_append] at hInv
  obtain ⟨-, hall⟩ := hInv
  obtain ⟨hcount, -, huses, -⟩ := hall k
  have hmc : (runCalls times (initKM keys mc period t0)).2.maxCalls = mc :=
    runCalls_maxCalls times (initKM keys mc period t0)
  omega

theorem rate_limit_per_window_witness :
    usesSince 0 (((runCalls [0, 0, 0] (initKM [0, 1] 1 3600 0)).2.usage 0).start)
        (runCalls [0, 0, 0] (initKM [0, 1] 1 3600 0)).1 ≤ 1 :=
  rate_limit_per_window [0, 1] 1 3600 0 [0, 0, 0] 0 (by decide) (by decide) (by decide)

/-- C1 (counterexample to the rolling-window reading): with one credential,
`max_calls = 1` and `window_duration = 2`, calls at times `1` and `2` both
return the credential (time `2` triggers the lazy reset), so the credential
is handed out twice inside the rolling interval `[1, 1 + 2)` — more than
`max_calls` times within a time interval of length `window_duration`. -/
theorem rolling_window_counterexample :
    (initKM [0] 1 2 0).maxCalls <
      usesOfKeyIn 0 1 2 (runCalls [1, 2] (initKM [0] 1 2 0)).1 := by
  decide

/-! ## Cache round-trip (C3) -/

/-- C3: storing a `SearchResult` under a signature and retrieving with the
identical signature returns a result with an equal item list while the
entry's age is strictly below the TTL; once the age reaches the TTL the
lookup misses; with `ttl_hours = 0` every lookup misses regardless of age.
`t0` is the write time, `t1 ≥ t0` the read time. -/
theorem cache_roundtrip (st : MediaCacheState) (provider : Option String)
    (query filtersJson : String) (page perPage : Nat) (result : SearchResult)
    (t0 t1 : Nat) (_hmono : t0 ≤ t1) :
    (t1 - t0 < st.ttl_hours * 3600 →
      ∃ r, get_cached_search_result t1 query page perPage filtersJson provider
            (cache_search_result t0 query page perPage filtersJson result provider st) =
          some r ∧ r.items = result.items) ∧
    (st.ttl_hours * 3600 ≤ t1 - t0 →
      get_cached_search_result t1 query page perPage filtersJson provider
        (cache_search_result t0 query page perPage filtersJson result provider st) = none) ∧
    (st.ttl_hours = 0 →
      get_cached_search_result t1 query page perPage filtersJson provider
        (cache_search_result t0 query page perPage filtersJson result provider st) = none) := by
  have hkey : (cache_search_result t0 query page perPage filtersJson result provider st).searches
      (searchKeyString provider query page perPage filtersJson) =
      some ⟨t0, ⟨result.items, result.total_results, result.page, result.per_page,
        result.has_next⟩⟩ := by
    simp [cache_search_result]
  refine ⟨?_, ?_, ?_⟩
  · intro hfresh
    refine ⟨⟨result.items, result.total_results, result.page, result.per_page, 0,
      result.has_next⟩, ?_, rfl⟩
    simp only [get_cached_search_result, hkey, is_cache_valid]
    rw [if_pos (by simpa using hfresh)]
  · intro hexp
    simp only [get_cached_search_result, hkey, is_cache_valid]
    rw [if_neg (by simpa using Nat.not_lt.mpr hexp)]
  · intro h0
    simp only [get_cached_search_result, hkey, is_cache_valid]
    rw [if_neg (by simp [cache_search_result, h0])]

theorem cache_roundtrip_witness :
    (200 - 100 < (emptyCache 24).ttl_hours * 3600 →
      ∃ r, get_cached_search_result 200 "mountain" 1 15 "fs" (some "pexels")
            (cache_search_result 100 "mountain" 1 15 "fs" sampleResult (some "pexels")
              (emptyCache 24)) =
          some r ∧ r.items = sampleResult.items) ∧
    ((emptyCache 24).ttl_hours * 3600 ≤ 200 - 100 →
      get_cached_search_result 200 "mountain" 1 15 "fs" (some "pexels")
        (cache_search_result 100 "mountain" 1 15 "fs" sampleResult (some "pexels")
          (emptyCache 24)) = none) ∧
    ((emptyCache 24).ttl_hours = 0 →
      get_cached_search_result 200 "mountain" 1 15 "fs" (some "pexels")
        (cache_search_result 100 "mountain" 1 15 "fs" sampleResult (some "pexels")
          (emptyCache 24)) = none) :=
  cache_roundtrip (emptyCache 24) (some "pexels") "mountain" "fs" 1 15 sampleResult
    100 200 (by decide)

/-! ## `media_type="both"` combination (C6) -/

/-- C6: a `media_type="both"` search issues the photo and video sub-searches
with `per_page // 2` each; whenever both sub-searches return (here: produce
`ok` results) and `per_page > 0`, the search returns a result whose item
list is the photos-first concatenation truncated to the originally
requested `per_page` (hence at most `per_page` items) and whose
`total_results` is the sum of the two sub-totals; at `per_page = 0` the
`total_results // per_page` computation raises an uncaught
`ZeroDivisionError` instead of returning. -/
theorem search_both_combination (query : String) (page perPage : Nat)
    (photoSearch videoSearch : String → Nat → Nat → Except String SearchResult)
    (photoRes videoRes : SearchResult)
    (hphoto : photoSearch query page (perPage / 2) = Except.ok photoRes)
    (hvideo : videoSearch query page (perPage / 2) = Except.ok videoRes) :
    (0 < perPage →
      ∃ r, pexels_search query page perPage "both" photoSearch videoSearch = Except.ok r ∧
        r.items = (photoRes.items ++ videoRes.items).take perPage ∧
        r.total_results = photoRes.total_results + videoRes.total_results ∧
        r.items.length ≤ perPage) ∧
    (perPage = 0 →
      pexels_search query page perPage "both" photoSearch videoSearch =
        Except.error "ZeroDivisionError") := by
  have hred : pexels_search query page perPage "both" photoSearch videoSearch =
      if perPage = 0 then Except.error "ZeroDivisionError"
      else Except.ok
        { items := (photoRes.items ++ videoRes.items).take perPage
          total_results := photoRes.total_results + videoRes.total_results
          page := page
          per_page := perPage
          total_pages := (photoRes.total_results + videoRes.total_results) / perPage + 1
          has_next :=
            decide (page < (photoRes.total_results + videoRes.total_results) / perPage + 1) } := by
    unfold pexels_search
    rw [if_pos rfl, hphoto, hvideo]
  rw [hred]
  refine ⟨?_, ?_⟩
  · intro hpp
    rw [if_neg (Nat.pos_iff_ne_zero.mp hpp)]
    refine ⟨_, rfl, rfl, rfl, ?_⟩
    show (((photoRes.items ++ videoRes.items).take perPage)).length ≤ perPage
    rw [List.length_take]
    exact Nat.min_le_left _ _
  · intro h0
    rw [if_pos h0]

theorem search_both_combination_witness :
    (0 < 4 →
      ∃ r, pexels_search "city" 1 4 "both" stubPhotoSearch stubVideoSearch = Except.ok r ∧
        r.items = (stubPhotoResult.items ++ stubVideoResult.items).take 4 ∧
        r.total_results = stubPhotoResult.total_results + stubVideoResult.total_results ∧
        r.items.length ≤ 4) ∧
    (4 = 0 →
      pexels_search "city" 1 4 "both" stubPhotoSearch stubVideoSearch =
        Except.error "ZeroDivisionError") :=
  search_both_combination "city" 1 4 stubPhotoSearch stubVideoSearch
    stubPhotoResult stubVideoResult rfl rfl

/-! ## Video quality selection (C7) -/

theorem findPrefLink_eq_findSome? (videoFiles : List VideoFile) :
    ∀ ps : List String,
      findPrefLink videoFiles ps =
        ps.findSome? (fun p =>
          (videoFiles.find? (fun vf => vf.quality == some p && truthyLink vf.link)).map
            (fun vf => vf.link.getD ""))
  | [] => rfl
  | p :: ps => by
    simp only [findPrefLink, List.findSome?_cons]
    cases videoFiles.find? (fun vf => vf.quality == some p && truthyLink vf.link) with
    | none => simpa using findPrefLink_eq_findSome? videoFiles ps
    | some vf => rfl

/-- C7: for every `video_files` list and quality label in
`{best, hd, sd, worst}`, `_select_video_quality` computes exactly the
spec-side selection: the first entry (with a usable link) matching the
label's fixed preference order, the first entry with a link as fallback,
and `""` on an empty list. -/
theorem select_video_quality_correct (videoFiles : List VideoFile) (quality : String)
    (hq : quality ∈ ["best", "hd", "sd", "worst"]) :
    select_video_quality videoFiles quality = selectVideoQualitySpec videoFiles quality := by
  cases videoFiles with
  | nil => rfl
  | cons v vs =>
    simp only [List.mem_cons, List.not_mem_nil, or_false] at hq
    have hstep : ∀ q : String,
        select_video_quality (v :: vs) q =
          match findPrefLink (v :: vs) ((qualityPreferences.lookup q).getD ["hd", "sd", "hls"]) with
          | some link => link
          | none =>
            match (v :: vs).find? (fun vf => truthyLink vf.link) with
            | some vf => vf.link.getD ""
            | none => "" := by
      intro q
      unfold select_video_quality
      rw [if_neg (by simp)]
    rcases hq with rfl | rfl | rfl | rfl
    · rw [hstep, findPrefLink_eq_findSome?]; rfl
    · rw [hstep, findPrefLink_eq_findSome?]; rfl
    · rw [hstep, findPrefLink_eq_findSome?]; rfl
    · rw [hstep, findPrefLink_eq_findSome?]; rfl

theorem select_video_quality_correct_witness :
    select_video_quality sampleVideoFiles "best" =
      selectVideoQualitySpec sampleVideoFiles "best" :=
  select_video_quality_correct sampleVideoFiles "best" (by decide)

/-! ## Google `get_item` (C8) -/

/-- C8: `get_item` on the browser-automation provider fails with the
not-supported error for every id — the result does not depend on the id
(no lookup happens), it is never a successful `MediaItem`, and a
not-supported error is distinct from any runtime ("not found") error. -/
theorem google_get_item_not_supported (itemId itemId' mediaType mediaType' : String) :
    (∃ msg, google_get_item itemId mediaType = Except.error (FetchError.notSupported msg)) ∧
    google_get_item itemId mediaType = google_get_item itemId' mediaType' ∧
    (∀ item : MediaItem, google_get_item itemId mediaType ≠ Except.ok item) ∧
    (∀ msg msg' : String, FetchError.notSupported msg ≠ FetchError.runtimeError msg') := by
  refine ⟨⟨_, rfl⟩, rfl, ?_, ?_⟩
  · intro item h
    exact Except.noConfusion h
  · intro msg msg' h
    exact FetchError.noConfusion h

/-! ## Exhaustion mid-search (C2) -/

/-- C2 (counterexample): with every credential exhausted, the Pexels search
retry loop does not surface any error to the caller — it returns a plain
`ok` empty result (no items, `total_results = 0`) and performs no HTTP
request, contradicting the claim that the exhaustion error reaches the
caller rather than an empty result. -/
theorem search_exhaustion_counterexample :
    (pexels_search_retry 1 15 (fun _ => 0) (fun _ => AttemptOutcome.requestError)
        exhaustedKM).1 = Except.ok (emptySearchResult 1 15) ∧
    (pexels_search_retry 1 15 (fun _ => 0) (fun _ => AttemptOutcome.requestError)
        exhaustedKM).2.2 = 0 :=
  ⟨rfl, rfl⟩

/-- C2 (amended): when the key manager signals exhaustion at any attempt of
the retry loop, the loop `break`s immediately — no HTTP request is made from
that attempt on — and the call returns an empty `SearchResult` to the
caller instead of propagating the error. -/
theorem search_exhaustion_returns_empty (page perPage : Nat) (now : Nat → Nat)
    (http : Nat → AttemptOutcome) (remaining attempt : Nat) (s : KMState)
    (h : (get_next_key (now attempt) s).1 = none) :
    searchAttempts page perPage now http (remaining + 1) attempt s =
      (Except.ok (emptySearchResult page perPage), (get_next_key (now attempt) s).2, 0) := by
  unfold searchAttempts
  rcases hg : get_next_key (now attempt) s with ⟨res, s'⟩
  rw [hg] at h
  have hres : res = none := h
  subst hres
  rfl

theorem search_exhaustion_returns_empty_witness :
    searchAttempts 1 15 (fun _ => 0) (fun _ => AttemptOutcome.requestError) 3 1 exhaustedKM =
      (Except.ok (emptySearchResult 1 15), (get_next_key 0 exhaustedKM).2, 0) :=
  search_exhaustion_returns_empty 1 15 (fun _ => 0) (fun _ => AttemptOutcome.requestError)
    2 1 exhaustedKM (by decide)

/-! ## Orchestrator write-through (C9) -/

/-- C9: with caching enabled and a cache miss (`use_cache=True`), a provider
search returning `n` items makes the orchestrator perform exactly `n + 1`
cache writes: one search-result entry plus one metadata entry per item. -/
theorem search_images_write_count (now : Nat) (providerName query : String)
    (page perPage : Nat) (filtersJson : String) (providerResult : SearchResult)
    (st : MediaCacheState)
    (hmiss : get_cached_search_result now query page perPage filtersJson
      (some providerName) st = none) :
    (search_images true true now providerName query page perPage filtersJson
        providerResult st).2.2.length = providerResult.items.length + 1 := by
  have hcond : (if (true && true : Bool) then
      get_cached_search_result now query page perPage filtersJson (some providerName) st
    else none) = none := by
    rw [if_pos (by decide)]
    exact hmiss
  unfold search_images
  rw [hcond]
  simp

theorem search_images_write_count_witness :
    (search_images true true 0 "stub" "mountain" 1 5 "fs" stubResult5
        (emptyCache 24)).2.2.length = 5 + 1 :=
  search_images_write_count 0 "stub" "mountain" 1 5 "fs" stubResult5 (emptyCache 24) rfl

/-! ## `search_and_download` on an empty search (C10) -/

theorem downloadLoop_length_le (download : Nat → MediaItem → Option String) :
    ∀ (i : Nat) (items : List MediaItem),
      (downloadLoop download i items).length ≤ items.length
  | _, [] => Nat.le_refl 0
  | i, item :: rest => by
    unfold downloadLoop
    cases download i item with
    | some path =>
      simpa using Nat.succ_le_succ (downloadLoop_length_le download (i + 1) rest)
    | none =>
      exact Nat.le_trans (downloadLoop_length_le download (i + 1) rest) (Nat.le_succ _)

/-- C10: when the underlying search returns zero items,
`search_and_download` raises `RuntimeError("No images found for query: …")`
instead of returning an empty path list; when the search is non-empty it
returns the successfully downloaded paths (failed downloads skipped), and
never more than `count` of them. -/
theorem search_and_download_spec (searchResult : SearchResult) (query : String)
    (count : Nat) (download : Nat → MediaItem → Option String) :
    (searchResult.items = [] →
      search_and_download searchResult query count download =
        Except.error ("No images found for query: " ++ query)) ∧
    (searchResult.items ≠ [] →
      ∃ paths, search_and_download searchResult query count download = Except.ok paths ∧
        paths.length ≤ count) := by
  constructor
  · intro h
    unfold search_and_download
    rw [if_pos h]
  · intro h
    refine ⟨downloadLoop download 1 (searchResult.items.take count), ?_, ?_⟩
    · unfold search_and_download
      rw [if_neg h]
    · refine Nat.le_trans (downloadLoop_length_le download 1 _) ?_
      rw [List.length_take]
      exact Nat.min_le_left _ _

theorem search_and_download_spec_witness :
    search_and_download (emptySearchResult 1 5) "mountain" 5 flakyDownload =
      Except.error ("No images found for query: " ++ "mountain") ∧
    ∃ paths, search_and_download fullSR "mountain" 5 flakyDownload = Except.ok paths ∧
      paths.length ≤ 5 :=
  ⟨(search_and_download_spec (emptySearchResult 1 5) "mountain" 5 flakyDownload).1 rfl,
   (search_and_download_spec fullSR "mountain" 5 flakyDownload).2 (by decide)⟩

end VideoBackend
